import Mathlib

/-!
Verification of the component documentation renderer
(`internal/docs/component.go`): schema/document reconciliation,
path flattening, default resolution, type inference and the
markdown rendering entry point `AsMarkdown`.

Go's `interface{}` configuration values are embedded as the inductive
family `JValue` (scalars, sequences, string-keyed mappings).  Go maps
are embedded as ordered association lists; an arbitrary iteration
choice of the runtime map is represented by the first matching entry.
The schema type `FieldSpec` (declared in the package but outside the
rendered file) follows the data model section of the specification.
-/

set_option autoImplicit false

mutual

/-- Untyped configuration value (`interface{}` in the source): scalar,
sequence or string-keyed mapping.  Floating point payloads are carried
as their literal text, since only their shape is ever inspected. -/
inductive JValue where
| null : JValue
| bool (b : Bool) : JValue
| int (n : Int) : JValue
| float (lit : String) : JValue
| str (s : String) : JValue
| arr (items : JArray) : JValue
| obj (fields : JObject) : JValue

/-- Sequence of configuration values (`[]interface{}`). -/
inductive JArray where
| nil : JArray
| cons (v : JValue) (rest : JArray) : JArray

/-- String-keyed mapping of configuration values
(`map[string]interface{}`), as an ordered association list. -/
inductive JObject where
| nil : JObject
| cons (key : String) (v : JValue) (rest : JObject) : JObject

end

/-- First value of a sequence, when the value is a non-empty sequence. -/
def headArr : JValue → Option JValue
| .arr (.cons v _) => some v
| _ => none

/-- Value of the first entry of a mapping, when the value is a
non-empty mapping; stands for the arbitrarily chosen key a Go map
range would visit first. -/
def firstObjValue : JValue → Option JValue
| .obj (.cons _ v _) => some v
| _ => none

/-- Lookup of a key inside a mapping association list. -/
def objFind : JObject → String → Option JValue
| .nil, _ => none
| .cons k v rest, key => if k = key then some v else objFind rest key

/-- Lookup of a key in a value: `none` unless the value is a mapping
holding the key. -/
def objGet : JValue → String → Option JValue
| .obj fields, key => objFind fields key
| _, _ => none

mutual

/-- Schema node (`FieldSpec`, declared in the docs package outside the
rendered file; fields follow the data model of the specification and
their uses in `component.go`): local name, optional explicit type tag
(empty string when unspecified), description, optional default
literal, advanced/deprecated/interpolated flags, container shape
flags, enumerated options, examples, version marker and children. -/
inductive FieldSpec where
| mk (Name : String) (Ty : String) (Description : String)
    (Default : Option JValue)
    (Advanced : Bool) (Deprecated : Bool) (Interpolated : Bool)
    (IsArray : Bool) (IsMap : Bool)
    (Options : List String) (AnnotatedOptions : List (String × String))
    (Examples : List JValue) (Version : String)
    (Children : FieldSpecs) : FieldSpec

/-- Ordered sequence of schema nodes (`FieldSpecs`). -/
inductive FieldSpecs where
| nil : FieldSpecs
| cons (f : FieldSpec) (rest : FieldSpecs) : FieldSpecs

end

def FieldSpec.Name : FieldSpec → String
| .mk n _ _ _ _ _ _ _ _ _ _ _ _ _ => n

def FieldSpec.Ty : FieldSpec → String
| .mk _ t _ _ _ _ _ _ _ _ _ _ _ _ => t

def FieldSpec.Description : FieldSpec → String
| .mk _ _ d _ _ _ _ _ _ _ _ _ _ _ => d

def FieldSpec.Default : FieldSpec → Option JValue
| .mk _ _ _ df _ _ _ _ _ _ _ _ _ _ => df

def FieldSpec.Advanced : FieldSpec → Bool
| .mk _ _ _ _ a _ _ _ _ _ _ _ _ _ => a

def FieldSpec.Deprecated : FieldSpec → Bool
| .mk _ _ _ _ _ dep _ _ _ _ _ _ _ _ => dep

def FieldSpec.Interpolated : FieldSpec → Bool
| .mk _ _ _ _ _ _ i _ _ _ _ _ _ _ => i

def FieldSpec.IsArray : FieldSpec → Bool
| .mk _ _ _ _ _ _ _ ia _ _ _ _ _ _ => ia

def FieldSpec.IsMap : FieldSpec → Bool
| .mk _ _ _ _ _ _ _ _ im _ _ _ _ _ => im

def FieldSpec.Options : FieldSpec → List String
| .mk _ _ _ _ _ _ _ _ _ o _ _ _ _ => o

def FieldSpec.AnnotatedOptions : FieldSpec → List (String × String)
| .mk _ _ _ _ _ _ _ _ _ _ ao _ _ _ => ao

def FieldSpec.Examples : FieldSpec → List JValue
| .mk _ _ _ _ _ _ _ _ _ _ _ ex _ _ => ex

def FieldSpec.Version : FieldSpec → String
| .mk _ _ _ _ _ _ _ _ _ _ _ _ ver _ => ver

def FieldSpec.Children : FieldSpec → FieldSpecs
| .mk _ _ _ _ _ _ _ _ _ _ _ _ _ ch => ch

/-- Copy of a schema node with its `Name` replaced (the struct copy
`newV := v; newV.Name = path + newV.Name` of the flattening walk). -/
def FieldSpec.setName (newName : String) : FieldSpec → FieldSpec
| .mk _ t d df a dep i ia im o ao ex ver ch =>
  .mk newName t d df a dep i ia im o ao ex ver ch

/-- Leaf schema node with a given name and every other field empty,
used to build concrete schema trees. -/
def mkLeaf (name : String) : FieldSpec :=
  .mk name "" "" none false false false false false [] [] [] "" .nil

/-- Number of entries of a schema node sequence. -/
def specsLength : FieldSpecs → Nat
| .nil => 0
| .cons _ rest => 1 + specsLength rest

mutual

/-- Total node count of a schema subtree rooted at one node. -/
def countNodes : FieldSpec → Nat
| .mk _ _ _ _ _ _ _ _ _ _ _ _ _ ch => 1 + countNodesList ch

/-- Total node count of a forest of schema subtrees. -/
def countNodesList : FieldSpecs → Nat
| .nil => 0
| .cons f rest => countNodes f + countNodesList rest

end

/-- Is the first character list a prefix of the second. -/
def charsPrefix : List Char → List Char → Bool
| [], _ => true
| _ :: _, [] => false
| c :: cs, d :: ds => c = d && charsPrefix cs ds

/-- Does the first character list occur contiguously inside the
second. -/
def charsInfix (needle : List Char) : List Char → Bool
| [] => charsPrefix needle []
| c :: cs => charsPrefix needle (c :: cs) || charsInfix needle cs

/-- Substring containment test (`strings.Contains` of the source). -/
def strContains (s sub : String) : Bool :=
  charsInfix sub.data s.data

/-- Splitting accumulator for `splitDot`. -/
def splitDotAux : List Char → List Char → List String
| [], acc => [String.mk acc.reverse]
| c :: rest, acc =>
  if c = '.' then String.mk acc.reverse :: splitDotAux rest []
  else splitDotAux rest (c :: acc)

/-- Split a string on the dot separator, keeping empty segments
(`strings.Split(s, ".")` of the source). -/
def splitDot (s : String) : List String :=
  splitDotAux s.data []

/-- Does the segment end with the two characters of the array skip
marker. -/
def endsWithBrackets (s : String) : Bool :=
  match s.data.reverse with
  | ']' :: '[' :: _ => true
  | _ => false

/-- Segment with a trailing two-character array skip marker removed. -/
def stripBrackets (s : String) : String :=
  String.mk s.data.dropLast.dropLast

mutual

/-- Deep clone of a configuration value (`iClone` of the source):
mappings and sequences are rebuilt entry by entry, any other value is
returned as is. -/
def iClone : JValue → JValue
| .null => .null
| .bool b => .bool b
| .int n => .int n
| .float lit => .float lit
| .str s => .str s
| .arr items => .arr (iCloneArr items)
| .obj fields => .obj (iCloneObj fields)

/-- Clone of each element of a sequence. -/
def iCloneArr : JArray → JArray
| .nil => .nil
| .cons v rest => .cons (iClone v) (iCloneArr rest)

/-- Clone of each entry of a mapping. -/
def iCloneObj : JObject → JObject
| .nil => .nil
| .cons k v rest => .cons k (iClone v) (iCloneObj rest)

end

/-- Lookup of the schema child with the given local name
(schema-driven key resolution of the sanitiser and sorter). -/
def findSpec : FieldSpecs → String → Option FieldSpec
| .nil, _ => none
| .cons f rest, key => if FieldSpec.Name f = key then some f else findSpec rest key

mutual

/-- Modelled from the spec: the schema-driven pruning step of
`SanitiseComponentConfig` (declared outside the rendered file).  A
mapping keeps exactly the keys whose schema node satisfies the filter,
recursively; a key absent from the schema passes through unmodified;
sequences are pruned elementwise; scalars are returned as is. -/
def sanitiseValue (filter : FieldSpec → Bool) (specs : FieldSpecs) : JValue → JValue
| .obj fields => .obj (sanitiseObj filter specs fields)
| .arr items => .arr (sanitiseArr filter specs items)
| v => v

/-- Elementwise pruning of a sequence against the same schema nodes. -/
def sanitiseArr (filter : FieldSpec → Bool) (specs : FieldSpecs) : JArray → JArray
| .nil => .nil
| .cons v rest => .cons (sanitiseValue filter specs v) (sanitiseArr filter specs rest)

/-- Pruning of the entries of a mapping: schema-known keys are kept
only when the filter accepts their schema node (their values pruned
against that node's children), unknown keys pass through unmodified. -/
def sanitiseObj (filter : FieldSpec → Bool) (specs : FieldSpecs) : JObject → JObject
| .nil => .nil
| .cons k v rest =>
  match findSpec specs k with
  | none => .cons k v (sanitiseObj filter specs rest)
  | some f =>
    if filter f then
      .cons k (sanitiseValue filter (FieldSpec.Children f) v) (sanitiseObj filter specs rest)
    else sanitiseObj filter specs rest

end

/-- Modelled from the spec: `SanitiseComponentConfig` (declared
outside the rendered file) prunes the example Document Tree against
the component schema; the registry lookup it performs resolves to the
component being rendered, whose configuration lives under the
component name key of the document. -/
def SanitiseComponentConfig (conf : FieldSpec) (compName : String)
    (filter : FieldSpec → Bool) : JValue → JValue :=
  sanitiseValue filter (.cons (conf.setName compName) .nil)

/-- Schema-known entries of a mapping, emitted in schema declaration
order. -/
def knownInOrder : FieldSpecs → JObject → JObject
| .nil, _ => .nil
| .cons f rest, fields =>
  match objFind fields (FieldSpec.Name f) with
  | some v => .cons (FieldSpec.Name f) v (knownInOrder rest fields)
  | none => knownInOrder rest fields

/-- Entries of a mapping whose key is absent from the schema, in their
original relative order. -/
def unknownEntries (specs : FieldSpecs) : JObject → JObject
| .nil => .nil
| .cons k v rest =>
  if (findSpec specs k).isSome then unknownEntries specs rest
  else .cons k v (unknownEntries specs rest)

/-- Concatenation of two mapping entry lists. -/
def objAppend : JObject → JObject → JObject
| .nil, o => o
| .cons k v rest, o => .cons k v (objAppend rest o)

/-- Human-readable kind of a value, used by the structural error
messages of the serialisation pipeline. -/
def kindName : JValue → String
| .obj _ => "mapping"
| .arr _ => "sequence"
| _ => "scalar"

mutual

/-- Modelled from the spec: the node sorter `SortNode` (declared
outside the rendered file).  Mapping keys are reordered to schema
declaration order with unknown keys appended after them in their
original relative order, recursively; a scalar found where the schema
declares a composite is a structural error. -/
def sortValue (specs : FieldSpecs) : JValue → Except String JValue
| .obj fields =>
  match sortObjEntries specs fields with
  | .error e => .error e
  | .ok sorted => .ok (.obj (objAppend (knownInOrder specs sorted) (unknownEntries specs sorted)))
| .arr items =>
  match sortArr specs items with
  | .error e => .error e
  | .ok sorted => .ok (.arr sorted)
| v => .ok v

/-- Elementwise sorting of a sequence against the same schema nodes. -/
def sortArr (specs : FieldSpecs) : JArray → Except String JArray
| .nil => .ok .nil
| .cons v rest =>
  match sortValue specs v with
  | .error e => .error e
  | .ok v2 =>
    match sortArr specs rest with
    | .error e => .error e
    | .ok rest2 => .ok (.cons v2 rest2)

/-- Recursive sorting of each entry value whose schema node is a
composite; a scalar under a composite schema node is a structural
error, entries without a composite schema node are left as they are. -/
def sortObjEntries (specs : FieldSpecs) : JObject → Except String JObject
| .nil => .ok .nil
| .cons k v rest =>
  let sortedV : Except String JValue :=
    match findSpec specs k with
    | some f =>
      match FieldSpec.Children f with
      | .nil => .ok v
      | .cons c cs =>
        match v with
        | .obj fs => sortValue (.cons c cs) (.obj fs)
        | .arr items => sortValue (.cons c cs) (.arr items)
        | other => .error ("expected mapping node for sorting of key " ++ k ++ ", got kind: " ++ kindName other)
    | none => .ok v
  match sortedV with
  | .error e => .error e
  | .ok v2 =>
    match sortObjEntries specs rest with
    | .error e => .error e
    | .ok rest2 => .ok (.cons k v2 rest2)

end

/-- One step of the dotted-path traversal into the example Document
Tree.  Modelled from the spec: the lookup performed through
`gabs.Wrap(...).Path(...)` (an external library) interprets the
synthetic segments as skip markers rather than literal keys — a
segment carrying the array marker addresses the named key and then
inspects only the first sequence element, the map marker segment
inspects an arbitrarily chosen existing key of the mapping, and every
other segment is a plain key lookup. -/
def gabsStep (v : JValue) (seg : String) : Option JValue :=
  if endsWithBrackets seg then
    let key := stripBrackets seg
    match (if key = "" then some v else objGet v key) with
    | some base => headArr base
    | none => none
  else if seg = "<name>" then firstObjValue v
  else objGet v seg

/-- Traversal of a whole dotted path, segment by segment, from an
optional starting subtree; a failed step or an absent starting subtree
yields no value. -/
def gabsLookup : Option JValue → List String → Option JValue
| v, [] => v
| none, _ :: _ => none
| some v, seg :: rest => gabsLookup (gabsStep v seg) rest

/-- Modelled from the spec: the type classifier
`getFieldTypeFromInterface` (declared outside the rendered file)
classifies a literal's runtime shape into one of the labels
string/int/float/bool/object together with a separate array flag; a
sequence carries the label of its first element. -/
def getFieldTypeFromInterface : JValue → String × Bool
| .str _ => ("string", false)
| .int _ => ("int", false)
| .float _ => ("float", false)
| .bool _ => ("bool", false)
| .null => ("object", false)
| .obj _ => ("object", false)
| .arr .nil => ("object", true)
| .arr (.cons v _) => ((getFieldTypeFromInterface v).fst, true)

/-- Decimal digits of a natural number, with structural fuel. -/
def natDigitsAux : Nat → Nat → List Char
| 0, _ => []
| fuel + 1, n =>
  if n = 0 then []
  else natDigitsAux fuel (n / 10) ++ [Char.ofNat (48 + n % 10)]

/-- Decimal rendering of a natural number. -/
def natToString (n : Nat) : String :=
  if n = 0 then "0" else String.mk (natDigitsAux (n + 1) n)

/-- Decimal rendering of an integer. -/
def intToString : Int → String
| .ofNat n => natToString n
| .negSucc n => "-" ++ natToString (n + 1)

mutual

/-- Modelled from the spec: the string rendering of a resolved default
literal (`gabs.Wrap(v).String()`, an external library call producing
the JSON text of the value). -/
def jsonString : JValue → String
| .null => "null"
| .bool true => "true"
| .bool false => "false"
| .int n => intToString n
| .float lit => lit
| .str s => "\"" ++ s ++ "\""
| .arr items => "[" ++ jsonStringArr items ++ "]"
| .obj fields => "\x7b" ++ jsonStringObj fields ++ "\x7d"

/-- Comma-separated JSON rendering of sequence elements. -/
def jsonStringArr : JArray → String
| .nil => ""
| .cons v .nil => jsonString v
| .cons v (.cons w rest) => jsonString v ++ "," ++ jsonStringArr (.cons w rest)

/-- Comma-separated JSON rendering of mapping entries. -/
def jsonStringObj : JObject → String
| .nil => ""
| .cons k v .nil => "\"" ++ k ++ "\":" ++ jsonString v
| .cons k v (.cons k2 w rest) =>
  "\"" ++ k ++ "\":" ++ jsonString v ++ "," ++ jsonStringObj (.cons k2 w rest)

end

/-- Modelled from the spec: the YAML encoding primitive
`config.MarshalYAML` (declared outside the rendered file) is an
external serialisation collaborator; it is modelled as a deterministic
total rendering of the value followed by a newline. -/
def marshalYAML (v : JValue) : String :=
  jsonString v ++ "\n"

/-- JSON rendering of a list of strings (`json.Marshal` of the
categories slice). -/
def jsonStrList (xs : List String) : String :=
  "[" ++ String.join (List.intersperse "," (xs.map (fun s => "\"" ++ s ++ "\""))) ++ "]"

/-- String with one leading newline character removed when present
(the cosmetic normalisation applied to descriptions and footnotes). -/
def stripLeadingNewline (s : String) : String :=
  match s.data with
  | '\n' :: rest => String.mk rest
  | _ => s

/-- Sanitised, ordered configuration snippet for one filtered view
(`createOrderedConfig` of the source).  The YAML marshal/unmarshal
round trip through `yaml.Node` is modelled as structure preserving;
the document node produced by the round trip wraps the value itself,
so the source's mapping-kind check on its only child is the check that
the sanitised value is a mapping. -/
def createOrderedConfig (conf : FieldSpec) (compName : String)
    (filter : FieldSpec → Bool) (rawExample : JValue) : Except String JValue :=
  let rawConfig := SanitiseComponentConfig conf compName filter (iClone rawExample)
  match rawConfig with
  | .obj fields => sortValue (.cons (conf.setName compName) .nil) (.obj fields)
  | v => .error ("expected mapping node child kind: " ++ kindName v)

/-- Outcome of `genExampleConfigs`: either the two rendered snippets
with a nil error value, or a runtime panic.  The function's error
return is never non-nil in the source — every internal failure is
raised through `panic(err)` instead. -/
inductive GenResult where
| ok (common advanced : String) : GenResult
| panicked (msg : String) : GenResult
deriving DecidableEq

/-- Common and advanced configuration snippets (`genExampleConfigs` of
the source): the advanced view keeps non-deprecated fields, the common
view keeps non-advanced non-deprecated fields, each optionally nested
under the component type key; any error from `createOrderedConfig` is
raised as a panic, never returned. -/
def genExampleConfigs (conf : FieldSpec) (compName : String) (t : String)
    (nest : Bool) (fullConfigExample : JValue) : GenResult :=
  match createOrderedConfig conf compName (fun f => !f.Deprecated) fullConfigExample with
  | .error e => .panicked e
  | .ok advConfig0 =>
    match createOrderedConfig conf compName (fun f => !f.Advanced && !f.Deprecated) fullConfigExample with
    | .error e => .panicked e
    | .ok commonConfig0 =>
      let advConfig := if nest then JValue.obj (.cons t advConfig0 .nil) else advConfig0
      let commonConfig := if nest then JValue.obj (.cons t commonConfig0 .nil) else commonConfig0
      .ok (marshalYAML commonConfig) (marshalYAML advConfig)

/-- Shape suffix a composite contributes to the dotted path of its
children: the array marker for array-shaped nodes, the map marker for
map-shaped nodes, nothing otherwise. -/
def childSuffix (ia im : Bool) : String :=
  if ia then "[]" else if im then ".<name>" else ""

/-- Pre-order flattening walk over the schema forest (`walkFields` of
the source): each node is emitted with its name replaced by the dotted
path, then its children are walked under the extended path, then the
walk continues with its siblings. -/
def walkFields : String → FieldSpecs → List FieldSpec
| _, .nil => []
| path, .cons (.mk n ty d df a dep i ia im o ao ex ver ch) rest =>
  let newV : FieldSpec := .mk (path ++ n) ty d df a dep i ia im o ao ex ver ch
  let childPart : List FieldSpec :=
    match ch with
    | .nil => []
    | .cons c cs => walkFields (path ++ n ++ childSuffix ia im ++ ".") (.cons c cs)
  newV :: (childPart ++ walkFields path rest)

/-- Path prefix contributed by the anonymous root of the schema tree:
a bare array or map marker when the root itself is array- or
map-shaped. -/
def rootPath (conf : FieldSpec) : String :=
  if conf.IsArray then "[]." else if conf.IsMap then "<name>." else ""

/-- Flattened field descriptors of a component's schema tree, in
pre-order, starting from the anonymous root's prefix. -/
def flattenComponentFields (conf : FieldSpec) : List FieldSpec :=
  walkFields (rootPath conf) (FieldSpec.Children conf)

/-- Example subtree the defaults are resolved against
(`gabs.Wrap(fullConfigExample).S(c.Name)` of the source): the value
under the component name key when the example is a mapping holding
that key, nothing otherwise. -/
def gConfOf (fullConfigExample : JValue) (name : String) : Option JValue :=
  objGet fullConfigExample name

/-- Resolved default of one flattened field: the explicit schema
default when present, otherwise the dotted-path lookup into the
example subtree. -/
def resolveDefault (gConf : Option JValue) (v : FieldSpec) : Option JValue :=
  match FieldSpec.Default v with
  | some d => some d
  | none => gabsLookup gConf (splitDot (FieldSpec.Name v))

/-- Displayed type of one flattened field (the type resolution block
of the source's field loop): the explicit type tag when non-empty,
otherwise the classification of the first example value when examples
exist, otherwise the classification of the resolved default; a set
array flag rewrites the label to array and a set map flag rewrites it
to object, in that order. -/
def resolveTypeStr (v : FieldSpec) (defaultValue : JValue) : String :=
  let ftia :=
    if FieldSpec.Ty v = "" then
      match FieldSpec.Examples v with
      | e :: _ => getFieldTypeFromInterface e
      | [] => getFieldTypeFromInterface defaultValue
    else (FieldSpec.Ty v, FieldSpec.IsArray v)
  let fieldTypeStr := if ftia.snd then "array" else ftia.fst
  if FieldSpec.IsMap v then "object" else fieldTypeStr

/-- Last segment of a dotted field path, used as the key of rendered
per-field examples. -/
def lastSegment (name : String) : String :=
  List.getLastD (splitDot name) name

/-- Error message of the missing-default failure, naming the offending
field (the `fmt.Errorf` of the source's field loop). -/
def missingDefaultMsg (name : String) : String :=
  "field \x27" ++ name ++ "\x27 not found in config example and no default value was provided in the spec"

/-- Rendered field context of the documentation (`fieldContext` of the
source). -/
structure FieldContext where
  Name : String
  Ty : String
  Description : String
  Default : String
  Advanced : Bool
  Deprecated : Bool
  Interpolated : Bool
  Examples : List String
  AnnotatedOptions : List (String × String)
  Options : List String
  Version : String
deriving DecidableEq

/-- Per-field body of the source's resolution loop: resolve the
default (failing with the missing-default error when neither source
yields a value), render it (composites render no literal default
text), resolve the displayed type, render the per-field examples and
normalise the description. -/
def buildFieldContext (gConf : Option JValue) (v : FieldSpec) : Except String FieldContext :=
  match resolveDefault gConf v with
  | none => .error (missingDefaultMsg (FieldSpec.Name v))
  | some defaultValue =>
    let defaultValueStr :=
      match FieldSpec.Children v with
      | .nil => jsonString defaultValue
      | _ => ""
    let fieldTypeStr := resolveTypeStr v defaultValue
    let examples :=
      (FieldSpec.Examples v).map
        (fun e => marshalYAML (.obj (.cons (lastSegment (FieldSpec.Name v)) e .nil)))
    let desc0 :=
      if FieldSpec.Description v = "" then "Sorry! This field is missing documentation."
      else FieldSpec.Description v
    .ok
      { Name := FieldSpec.Name v
        Ty := fieldTypeStr
        Description := stripLeadingNewline desc0
        Default := defaultValueStr
        Advanced := FieldSpec.Advanced v
        Deprecated := false
        Interpolated := FieldSpec.Interpolated v
        Examples := examples
        AnnotatedOptions := FieldSpec.AnnotatedOptions v
        Options := FieldSpec.Options v
        Version := FieldSpec.Version v }

/-- The source's field loop over the flattened descriptors: deprecated
fields are skipped, every other field is resolved in order, and the
first failure aborts the whole loop with its error. -/
def buildFieldContexts (gConf : Option JValue) : List FieldSpec → Except String (List FieldContext)
| [] => .ok []
| v :: rest =>
  if FieldSpec.Deprecated v then buildFieldContexts gConf rest
  else
    match buildFieldContext gConf v with
    | .error e => .error e
    | .ok fc =>
      match buildFieldContexts gConf rest with
      | .error e => .error e
      | .ok fcs => .ok (fc :: fcs)

/-- Isolated named example of a component (`AnnotatedExample` of the
source). -/
structure AnnotatedExample where
  Title : String
  Summary : String
  Config : String
deriving DecidableEq

/-- Component record (`ComponentSpec` of the source): metadata, the
example list, and the root schema tree. -/
structure ComponentSpec where
  Name : String
  Ty : String
  Status : String
  Summary : String
  Description : String
  Categories : List String
  Footnotes : String
  Examples : List AnnotatedExample
  Config : FieldSpec
  Version : String

/-- Assembled template context (`componentContext` of the source). -/
structure ComponentContext where
  Name : String
  Ty : String
  FrontMatterSummary : String
  Summary : String
  Description : String
  Categories : String
  Examples : List AnnotatedExample
  Fields : List FieldContext
  Footnotes : String
  CommonConfig : String
  AdvancedConfig : String
  Status : String
  Version : String

/-- Modelled from the spec: the text-template expansion of the final
markdown document is an external collaborator; it is modelled as a
deterministic total assembly of the context into the output text. -/
def renderTemplate (ctx : ComponentContext) : String :=
  "---\ntitle: " ++ ctx.Name ++ "\ntype: " ++ ctx.Ty ++ "\nstatus: " ++ ctx.Status
    ++ "\ncategories: " ++ ctx.Categories ++ "\n---\n" ++ ctx.Summary ++ "\n"
    ++ ctx.Description ++ "\n" ++ ctx.CommonConfig ++ "\n" ++ ctx.AdvancedConfig ++ "\n"
    ++ (ctx.Fields.map (fun f => f.Name ++ ": " ++ f.Ty ++ " " ++ f.Default ++ " "
          ++ f.Description ++ "\n")).foldl (fun a b => a ++ b) ""
    ++ ctx.Footnotes

/-- Outcome of a call to `AsMarkdown`: the rendered document, a
returned error value, or a runtime panic raised below the call. -/
inductive RenderResult where
| ok (doc : String) : RenderResult
| error (msg : String) : RenderResult
| panicked (msg : String) : RenderResult
deriving DecidableEq

/-- Error message of the malformed-summary rejection, naming the
component and its type. -/
def summaryMsg (c : ComponentSpec) : String :=
  c.Ty ++ " component \x27" ++ c.Name ++ "\x27 has a summary containing empty lines"

/-- Rendering entry point (`AsMarkdown` of the source): reject a
summary containing a blank line; generate the two config snippets
(any internal failure there is a panic raised out of
`genExampleConfigs`); normalise description and footnotes; flatten
the schema tree; resolve every non-deprecated flattened field against
the example subtree under the component name, aborting with the first
field error; then assemble the document text. -/
def ComponentSpec.AsMarkdown (c : ComponentSpec) (nest : Bool)
    (fullConfigExample : JValue) : RenderResult :=
  if strContains c.Summary "\n\n" then .error (summaryMsg c)
  else
    let status := if c.Status = "" then "stable" else c.Status
    let categories := if c.Categories.length > 0 then jsonStrList c.Categories else ""
    match genExampleConfigs c.Config c.Name c.Ty nest fullConfigExample with
    | .panicked m => .panicked m
    | .ok commonConfig advancedConfig =>
      let flattenedFields := flattenComponentFields c.Config
      let gConf := gConfOf fullConfigExample c.Name
      match buildFieldContexts gConf flattenedFields with
      | .error m => .error m
      | .ok fields =>
        .ok (renderTemplate
          { Name := c.Name
            Ty := c.Ty
            FrontMatterSummary := ""
            Summary := c.Summary
            Description := stripLeadingNewline c.Description
            Categories := categories
            Examples := c.Examples
            Fields := fields
            Footnotes := stripLeadingNewline c.Footnotes
            CommonConfig := commonConfig
            AdvancedConfig := advancedConfig
            Status := status
            Version := c.Version })

mutual

/-- The clone of a value is structurally equal to the value. -/
theorem iClone_id : ∀ (v : JValue), iClone v = v
| .null => rfl
| .bool _ => rfl
| .int _ => rfl
| .float _ => rfl
| .str _ => rfl
| .arr items => by rw [iClone, iCloneArr_id items]
| .obj fields => by rw [iClone, iCloneObj_id fields]

/-- The clone of a sequence is structurally equal to the sequence. -/
theorem iCloneArr_id : ∀ (items : JArray), iCloneArr items = items
| .nil => rfl
| .cons v rest => by rw [iCloneArr, iClone_id v, iCloneArr_id rest]

/-- The clone of a mapping is structurally equal to the mapping. -/
theorem iCloneObj_id : ∀ (fields : JObject), iCloneObj fields = fields
| .nil => rfl
| .cons k v rest => by rw [iCloneObj, iClone_id v, iCloneObj_id rest]

end

/-- Character data of a segment with the array marker appended. -/
theorem data_append_brackets (k : String) : (k ++ "[]").data = k.data ++ ['[', ']'] := by
  cases k with
  | mk l => rfl

/-- A segment carrying the array marker is recognised by the marker
test. -/
theorem endsWithBrackets_append (k : String) : endsWithBrackets (k ++ "[]") = true := by
  cases k with
  | mk l =>
    show endsWithBrackets (String.mk (l ++ ['[', ']'])) = true
    unfold endsWithBrackets
    simp

/-- Dropping the last two characters of a list extended by two
characters recovers the list. -/
theorem dropLast_two (l : List Char) (a b : Char) :
    ((l ++ [a, b]).dropLast).dropLast = l := by
  have h1 : l ++ [a, b] = (l ++ [a]) ++ [b] := by simp
  rw [h1, List.dropLast_concat, List.dropLast_concat]

/-- Stripping the array marker from a marked segment recovers the
segment. -/
theorem stripBrackets_append (k : String) : stripBrackets (k ++ "[]") = k := by
  cases k with
  | mk l =>
    show stripBrackets (String.mk (l ++ ['[', ']'])) = String.mk l
    unfold stripBrackets
    rw [show (String.mk (l ++ ['[', ']'])).data = l ++ ['[', ']'] from rfl, dropLast_two]

/-- A traversal from an absent subtree yields no value. -/
theorem gabsLookup_none : ∀ (path : List String), gabsLookup none path = none
| [] => rfl
| _ :: _ => rfl

/-- Pre-order traversal of a schema forest written from the
specification's words: each node is emitted before its children, the
children before the following siblings, each node carrying the dotted
path built from its ancestors' names and shape markers.  Used to
compare the source's flattening walk against the specified order. -/
def preOrderFlattenSpec : String → FieldSpecs → List FieldSpec
| _, .nil => []
| path, .cons (.mk n ty d df a dep i ia im o ao ex ver ch) rest =>
  FieldSpec.mk (path ++ n) ty d df a dep i ia im o ao ex ver ch
    :: (preOrderFlattenSpec (path ++ n ++ childSuffix ia im ++ ".") ch
        ++ preOrderFlattenSpec path rest)

/-- The flattening walk emits exactly one descriptor per schema node
of the forest. -/
theorem walkFields_length : ∀ (path : String) (fs : FieldSpecs),
    (walkFields path fs).length = countNodesList fs
| _, .nil => by simp [walkFields, countNodesList]
| path, .cons (.mk n ty d df a dep i ia im o ao ex ver ch) rest => by
  cases ch with
  | nil =>
    simp [walkFields, countNodesList, countNodes,
      walkFields_length path rest]
    omega
  | cons c cs =>
    simp [walkFields, countNodesList, countNodes,
      walkFields_length (path ++ n ++ childSuffix ia im ++ ".") (.cons c cs),
      walkFields_length path rest]
    omega

/-- The flattening walk emits descriptors in the specified pre-order. -/
theorem walkFields_preOrder : ∀ (path : String) (fs : FieldSpecs),
    walkFields path fs = preOrderFlattenSpec path fs
| _, .nil => by simp [walkFields, preOrderFlattenSpec]
| path, .cons (.mk n ty d df a dep i ia im o ao ex ver ch) rest => by
  cases ch with
  | nil =>
    simp [walkFields, preOrderFlattenSpec,
      walkFields_preOrder path rest]
  | cons c cs =>
    simp [walkFields, preOrderFlattenSpec,
      walkFields_preOrder (path ++ n ++ childSuffix ia im ++ ".") (.cons c cs),
      walkFields_preOrder path rest]

/-- Resolution failure of one flattened field: not deprecated, no
explicit default, and no value at its dotted path in the example
subtree. -/
def fieldResolutionFails (gConf : Option JValue) (v : FieldSpec) : Prop :=
  FieldSpec.Deprecated v = false ∧ FieldSpec.Default v = none ∧
    gabsLookup gConf (splitDot (FieldSpec.Name v)) = none

/-- The resolved default is absent exactly when the field has no
explicit default and its path lookup yields nothing. -/
theorem resolveDefault_eq_none (gConf : Option JValue) (v : FieldSpec) :
    resolveDefault gConf v = none ↔
      (FieldSpec.Default v = none ∧
        gabsLookup gConf (splitDot (FieldSpec.Name v)) = none) := by
  cases h : FieldSpec.Default v <;> simp [resolveDefault, h]

/-- A failing field makes its per-field resolution abort with the
missing-default error naming it. -/
theorem buildFieldContext_fails (gConf : Option JValue) (v : FieldSpec)
    (h : fieldResolutionFails gConf v) :
    buildFieldContext gConf v = .error (missingDefaultMsg (FieldSpec.Name v)) := by
  obtain ⟨-, h2, h3⟩ := h
  simp [buildFieldContext, resolveDefault, h2, h3]

/-- When some field of the flattened list fails to resolve, the whole
field loop aborts with the missing-default error of a failing field. -/
theorem buildFieldContexts_error (gConf : Option JValue) :
    ∀ (l : List FieldSpec), (∃ v ∈ l, fieldResolutionFails gConf v) →
      ∃ v ∈ l, fieldResolutionFails gConf v ∧
        buildFieldContexts gConf l = .error (missingDefaultMsg (FieldSpec.Name v)) := by
  intro l
  induction l with
  | nil => rintro ⟨v, hv, -⟩; cases hv
  | cons v rest ih =>
    rintro ⟨w, hw, hwfail⟩
    by_cases hdep : FieldSpec.Deprecated v = true
    · have hwrest : w ∈ rest := by
        rcases List.mem_cons.1 hw with h | h
        · exact absurd (h ▸ hwfail).1 (by simp [hdep])
        · exact h
      obtain ⟨u, hu, hufail, herr⟩ := ih ⟨w, hwrest, hwfail⟩
      exact ⟨u, List.mem_cons_of_mem _ hu, hufail,
        by simp [buildFieldContexts, hdep, herr]⟩
    · have hdep' : FieldSpec.Deprecated v = false := by
        simpa using hdep
      cases hres : resolveDefault gConf v with
      | none =>
        have hvfail : fieldResolutionFails gConf v := by
          obtain ⟨h1, h2⟩ := (resolveDefault_eq_none gConf v).1 hres
          exact ⟨hdep', h1, h2⟩
        refine ⟨v, List.mem_cons_self v rest, hvfail, ?_⟩
        simp [buildFieldContexts, hdep', buildFieldContext, hres]
      | some dv =>
        have hwrest : w ∈ rest := by
          rcases List.mem_cons.1 hw with h | h
          · subst h
            obtain ⟨-, h2, h3⟩ := hwfail
            rw [(resolveDefault_eq_none gConf w).2 ⟨h2, h3⟩] at hres
            cases hres
          · exact h
        obtain ⟨u, hu, hufail, herr⟩ := ih ⟨w, hwrest, hwfail⟩
        refine ⟨u, List.mem_cons_of_mem _ hu, hufail, ?_⟩
        simp [buildFieldContexts, hdep', buildFieldContext, hres, herr]

/-- Array-shaped schema field `retries` with one child field `max`. -/
def retriesField : FieldSpec :=
  .mk "retries" "" "" none false false false true false [] [] [] ""
    (.cons (mkLeaf "max") .nil)

/-- Root schema tree holding the single array-shaped field `retries`. -/
def retriesSpec : FieldSpec :=
  .mk "" "" "" none false false false false false [] [] [] ""
    (.cons retriesField .nil)

/-- Example document holding both a literal key spelled like a marked
segment and the real `retries` sequence of two elements, to separate
the skip-marker traversal from a literal-key reading. -/
def markerDemoTree : JValue :=
  .obj (.cons "retries[]" (.int 99)
    (.cons "retries"
      (.arr (.cons (.obj (.cons "max" (.int 3) .nil))
        (.cons (.obj (.cons "max" (.int 5) .nil)) .nil))) .nil))

/-- Component whose schema is an empty leaf, used with a scalar
example configuration. -/
def scalarExampleComponent : ComponentSpec :=
  { Name := "foo", Ty := "processor", Status := "", Summary := "ok",
    Description := "", Categories := [], Footnotes := "", Examples := [],
    Config := mkLeaf "", Version := "" }

/-- C1: the claim that every internal rendering failure is returned to
the caller as an error value (never a panic) is contradicted by the
code — on a component whose example configuration is a scalar, the
structural node-kind mismatch inside config generation is raised as a
panic out of `genExampleConfigs`, whose error return is always nil
and whose caller's error check is therefore dead code. -/
theorem spec_c1 :
    scalarExampleComponent.AsMarkdown false (.str "bar")
      = .panicked "expected mapping node child kind: scalar" := by
  decide

/-- C2: for a field without an explicit default the resolver traverses
the dotted path into the example subtree, treating the synthetic
segments as skip markers rather than literal keys — a segment carrying
the array marker looks up the stripped key and inspects only the first
sequence element, the map marker segment inspects the arbitrarily
chosen first existing entry — so `retries[].max` resolves to the `max`
of the first `retries` element even when a literal key spelled
`retries[]` exists. -/
theorem spec_c2 (v : JValue) (k : String) (g : Option JValue) (w : FieldSpec)
    (hk : k ≠ "") (hd : FieldSpec.Default w = none) :
    gabsStep v (k ++ "[]")
      = (match objGet v k with | some base => headArr base | none => none)
    ∧ gabsStep v "<name>" = firstObjValue v
    ∧ resolveDefault g w = gabsLookup g (splitDot (FieldSpec.Name w))
    ∧ resolveDefault (some markerDemoTree) (mkLeaf "retries[].max") = some (.int 3) := by
  refine ⟨?_, ?_, ?_, ?_⟩
  · simp [gabsStep, endsWithBrackets_append k, stripBrackets_append k, hk]
  · simp [gabsStep, show endsWithBrackets "<name>" = false from rfl]
  · simp [resolveDefault, hd]
  · rfl

/-- Witness for C2 at concrete inputs: the marked segment `a[]`
resolves through key `a` and the first sequence element, the map
marker inspects the first entry, a default-less field delegates to the
path traversal, and `retries[].max` samples the first `retries`
element of the demonstration tree. -/
theorem spec_c2_w :
    gabsStep markerDemoTree ("retries" ++ "[]")
      = (match objGet markerDemoTree "retries" with
         | some base => headArr base | none => none)
    ∧ gabsStep markerDemoTree "<name>" = firstObjValue markerDemoTree
    ∧ resolveDefault none (mkLeaf "x")
        = gabsLookup none (splitDot (FieldSpec.Name (mkLeaf "x")))
    ∧ resolveDefault (some markerDemoTree) (mkLeaf "retries[].max") = some (.int 3) :=
  spec_c2 markerDemoTree "retries" none (mkLeaf "x") (by decide) rfl

/-- Schema field whose dotted path would resolve to a conflicting
value in the demonstration tree, but which carries an explicit
default. -/
def conflictedField : FieldSpec :=
  .mk "retries[].max" "" "" (some (.int 42)) false false false false false
    [] [] [] "" .nil

/-- C4: a field with an explicit default resolves to exactly that
default, and the resolution does not depend on the example Document
Tree at all. -/
theorem spec_c4 (v : FieldSpec) (d : JValue) (g g2 : Option JValue)
    (h : FieldSpec.Default v = some d) :
    resolveDefault g v = some d ∧ resolveDefault g v = resolveDefault g2 v := by
  simp [resolveDefault, h]

/-- Witness for C4: the explicit default 42 wins over the value 3 the
path would find in the demonstration tree, and the resolution equals
the one against an absent tree. -/
theorem spec_c4_w :
    resolveDefault (some markerDemoTree) conflictedField = some (.int 42)
    ∧ resolveDefault (some markerDemoTree) conflictedField
        = resolveDefault none conflictedField :=
  spec_c4 conflictedField (.int 42) (some markerDemoTree) none rfl

/-- C9: the deep clone taken before sanitisation is structurally equal
to the registered example value, so a render reads exactly the
registered data while mutating only its private copy; in this
functional embedding the original value is unchanged by rendering. -/
theorem spec_c9 (root : JValue) : iClone root = root :=
  iClone_id root

/-- C3: when rendering reaches the field loop (the summary is valid
and the config snippets were generated), a flattened non-deprecated
field with neither an explicit default nor a value at its dotted path
in the example subtree makes `AsMarkdown` return the descriptive
missing-default error naming such a field; no document is produced. -/
theorem spec_c3 (c : ComponentSpec) (nest : Bool) (ex : JValue)
    (common adv : String)
    (hsum : strContains c.Summary "\n\n" = false)
    (hgen : genExampleConfigs c.Config c.Name c.Ty nest ex = .ok common adv)
    (hfail : ∃ v ∈ flattenComponentFields c.Config,
      fieldResolutionFails (gConfOf ex c.Name) v) :
    ∃ v ∈ flattenComponentFields c.Config,
      fieldResolutionFails (gConfOf ex c.Name) v ∧
        c.AsMarkdown nest ex = .error (missingDefaultMsg (FieldSpec.Name v)) := by
  obtain ⟨v, hv, hvfail, herr⟩ :=
    buildFieldContexts_error (gConfOf ex c.Name) (flattenComponentFields c.Config) hfail
  exact ⟨v, hv, hvfail, by simp [ComponentSpec.AsMarkdown, hsum, hgen, herr]⟩

/-- Component with the `retries`/`max` schema, no defaults anywhere. -/
def missingDefaultComponent : ComponentSpec :=
  { Name := "foo", Ty := "processor", Status := "", Summary := "ok",
    Description := "", Categories := [], Footnotes := "", Examples := [],
    Config := retriesSpec, Version := "" }

/-- Witness for C3: rendering the `retries` component against an empty
example mapping aborts with the missing-default error of a failing
flattened field. -/
theorem spec_c3_w :
    ∃ v ∈ flattenComponentFields missingDefaultComponent.Config,
      fieldResolutionFails (gConfOf (.obj .nil) missingDefaultComponent.Name) v ∧
        missingDefaultComponent.AsMarkdown false (.obj .nil)
          = .error (missingDefaultMsg (FieldSpec.Name v)) :=
  spec_c3 missingDefaultComponent false (.obj .nil) "\x7b\x7d\n" "\x7b\x7d\n" rfl rfl
    ⟨retriesField, List.mem_cons_self retriesField _, rfl, rfl, rfl⟩

/-- C5 as stated is refuted: the anonymous root is itself a node of
the schema tree but receives no descriptor, so a childless root
flattens to the empty sequence while its tree has one node. -/
theorem spec_c5_cex :
    ¬ ((flattenComponentFields (mkLeaf "")).length = countNodes (mkLeaf "")) := by
  decide

/-- C5 (amended): the flattener emits exactly one descriptor per node
of the root's child subtrees — its output length is the total node
count of the tree minus one for the anonymous root, which gets no
descriptor — and the descriptors appear in pre-order. -/
theorem spec_c5 (conf : FieldSpec) (path : String) (fs : FieldSpecs) :
    (flattenComponentFields conf).length = countNodesList (FieldSpec.Children conf)
    ∧ (flattenComponentFields conf).length + 1 = countNodes conf
    ∧ walkFields path fs = preOrderFlattenSpec path fs := by
  refine ⟨walkFields_length _ _, ?_, walkFields_preOrder _ _⟩
  cases conf with
  | mk n ty d df a dep i ia im o ao ex ver ch =>
    show (walkFields _ ch).length + 1 = countNodes _
    rw [walkFields_length, countNodes]
    omega

/-- C6: the path convention — an array-shaped composite prefixes its
children's paths with its name, the array marker and a dot; a
map-shaped composite with its name, a dot and the map marker segment;
an array- or map-shaped anonymous root contributes a bare marker
prefix; and in the `retries`/`max` example the child flattens to
`retries[].max`. -/
theorem spec_c6 (path n ty d : String) (df : Option JValue)
    (a dep i : Bool) (o : List String) (ao : List (String × String))
    (ex : List JValue) (ver : String) (c : FieldSpec) (cs : FieldSpecs)
    (rest : FieldSpecs) :
    walkFields path (.cons (.mk n ty d df a dep i true false o ao ex ver (.cons c cs)) rest)
      = FieldSpec.mk (path ++ n) ty d df a dep i true false o ao ex ver (.cons c cs)
        :: (walkFields (path ++ n ++ "[]" ++ ".") (.cons c cs) ++ walkFields path rest)
    ∧ walkFields path (.cons (.mk n ty d df a dep i false true o ao ex ver (.cons c cs)) rest)
      = FieldSpec.mk (path ++ n) ty d df a dep i false true o ao ex ver (.cons c cs)
        :: (walkFields (path ++ n ++ ".<name>" ++ ".") (.cons c cs) ++ walkFields path rest)
    ∧ rootPath (.mk n ty d df a dep i true false o ao ex ver (.cons c cs)) = "[]."
    ∧ rootPath (.mk n ty d df a dep i false true o ao ex ver (.cons c cs)) = "<name>."
    ∧ (flattenComponentFields retriesSpec).map FieldSpec.Name = ["retries", "retries[].max"] :=
  ⟨rfl, rfl, rfl, rfl, rfl⟩

/-- Map-shaped schema field carrying the explicit type tag string. -/
def mapTypedField : FieldSpec :=
  .mk "f" "string" "" (some (.str "x")) false false false false true
    [] [] [] "" .nil

/-- C7 as stated is refuted: a field with the explicit type tag
string but a set map flag displays object, not its declared type —
the map (and array) rewrite applies even over an explicit type. -/
theorem spec_c7_cex :
    FieldSpec.Ty mapTypedField = "string"
    ∧ resolveTypeStr mapTypedField (.str "x") = "object"
    ∧ resolveTypeStr mapTypedField (.str "x") ≠ FieldSpec.Ty mapTypedField := by
  refine ⟨rfl, rfl, ?_⟩
  decide

/-- C7 (amended): the displayed type starts from the explicit type tag
when one is declared (keeping the declared array flag), otherwise it is
inferred from the first example value when examples exist and from the
resolved default otherwise; the array flag then rewrites the label to
array and a set map flag rewrites it to object — both rewrites apply
regardless of whether the type was explicit or inferred. -/
theorem spec_c7 (v : FieldSpec) (dv e : JValue) (es : List JValue) :
    (FieldSpec.IsMap v = true → resolveTypeStr v dv = "object")
    ∧ (FieldSpec.IsMap v = false → FieldSpec.Ty v ≠ "" →
        resolveTypeStr v dv
          = (if FieldSpec.IsArray v then "array" else FieldSpec.Ty v))
    ∧ (FieldSpec.IsMap v = false → FieldSpec.Ty v = "" →
        FieldSpec.Examples v = e :: es →
        resolveTypeStr v dv
          = (if (getFieldTypeFromInterface e).snd then "array"
             else (getFieldTypeFromInterface e).fst))
    ∧ (FieldSpec.IsMap v = false → FieldSpec.Ty v = "" →
        FieldSpec.Examples v = [] →
        resolveTypeStr v dv
          = (if (getFieldTypeFromInterface dv).snd then "array"
             else (getFieldTypeFromInterface dv).fst)) := by
  refine ⟨?_, ?_, ?_, ?_⟩
  · intro hm
    simp [resolveTypeStr, hm]
  · intro hm ht
    simp [resolveTypeStr, hm, ht]
  · intro hm ht he
    simp [resolveTypeStr, hm, ht, he]
  · intro hm ht he
    simp [resolveTypeStr, hm, ht, he]

/-- Array-flagged schema field with the explicit type tag string. -/
def arrayTypedField : FieldSpec :=
  .mk "g" "string" "" none false false false true false [] [] [] "" .nil

/-- Schema field with no explicit type and one integer example. -/
def exampleTypedField : FieldSpec :=
  .mk "h" "" "" none false false false false false [] [] [.int 1] "" .nil

/-- Schema field with no explicit type and no examples. -/
def untypedField : FieldSpec :=
  .mk "u" "" "" none false false false false false [] [] [] "" .nil

/-- Witness for C7 at concrete fields: a map-flagged field displays
object over its explicit type, an array-flagged explicitly typed field
displays per its declared flags, an untyped field with an example
infers from the example, and an untyped example-less field infers from
the resolved default. -/
theorem spec_c7_w :
    resolveTypeStr mapTypedField (.str "x") = "object"
    ∧ resolveTypeStr arrayTypedField (.int 0)
        = (if FieldSpec.IsArray arrayTypedField then "array"
           else FieldSpec.Ty arrayTypedField)
    ∧ resolveTypeStr exampleTypedField (.str "d")
        = (if (getFieldTypeFromInterface (.int 1)).snd then "array"
           else (getFieldTypeFromInterface (.int 1)).fst)
    ∧ resolveTypeStr untypedField (.bool true)
        = (if (getFieldTypeFromInterface (.bool true)).snd then "array"
           else (getFieldTypeFromInterface (.bool true)).fst) :=
  ⟨(spec_c7 mapTypedField (.str "x") .null []).1 rfl,
   (spec_c7 arrayTypedField (.int 0) .null []).2.1 rfl (by decide),
   (spec_c7 exampleTypedField (.str "d") (.int 1) []).2.2.1 rfl rfl rfl,
   (spec_c7 untypedField (.bool true) .null []).2.2.2 rfl rfl rfl⟩

/-- C8: a component whose summary contains a blank line is rejected —
`AsMarkdown` returns the malformed-summary error naming the component
before any rendering work, so no document is produced. -/
theorem spec_c8 (c : ComponentSpec) (nest : Bool) (ex : JValue)
    (h : strContains c.Summary "\n\n" = true) :
    c.AsMarkdown nest ex = .error (summaryMsg c) := by
  simp [ComponentSpec.AsMarkdown, h]

/-- Component whose summary holds a blank line between two lines. -/
def blankSummaryComponent : ComponentSpec :=
  { scalarExampleComponent with Summary := "line one\n\nline two" }

/-- Witness for C8: the summary line one, blank line, line two is
rejected with the malformed-summary error. -/
theorem spec_c8_w :
    blankSummaryComponent.AsMarkdown false (.obj .nil)
      = .error (summaryMsg blankSummaryComponent) :=
  spec_c8 blankSummaryComponent false (.obj .nil) (by decide)

/-- C10: defaults are looked up only inside the example subtree under
the top-level key equal to the component name — when the example is a
mapping holding that key the traversal starts at that subtree, and
when the example holds no such key (or is no mapping at all) no field
without an explicit default is resolvable and the per-field resolution
fails with the missing-default error. -/
theorem spec_c10 (ex : JValue) (name : String) (v : FieldSpec)
    (fs : JObject) (sub : JValue) :
    (objFind fs name = some sub → FieldSpec.Default v = none →
      resolveDefault (gConfOf (.obj fs) name) v
        = gabsLookup (some sub) (splitDot (FieldSpec.Name v)))
    ∧ (objGet ex name = none → FieldSpec.Default v = none →
        gConfOf ex name = none
        ∧ resolveDefault (gConfOf ex name) v = none
        ∧ buildFieldContext (gConfOf ex name) v
            = .error (missingDefaultMsg (FieldSpec.Name v))) := by
  constructor
  · intro h1 h2
    simp [resolveDefault, h2, gConfOf, objGet, h1]
  · intro h1 h2
    have hg : gConfOf ex name = none := h1
    refine ⟨hg, ?_, ?_⟩
    · rw [hg]
      simp [resolveDefault, h2, gabsLookup_none]
    · rw [hg]
      simp [buildFieldContext, resolveDefault, h2, gabsLookup_none]

/-- Mapping example holding the component name key `foo`. -/
def namedExampleFields : JObject :=
  .cons "foo" (.int 1) .nil

/-- Witness for C10: with the example nested under `foo` the traversal
starts at that subtree; with a scalar example not nested under the
component name, no default-less field resolves and the field fails
with the missing-default error. -/
theorem spec_c10_w :
    resolveDefault (gConfOf (.obj namedExampleFields) "foo") (mkLeaf "bar")
      = gabsLookup (some (.int 1)) (splitDot (FieldSpec.Name (mkLeaf "bar")))
    ∧ gConfOf (.str "zzz") "foo" = none
    ∧ resolveDefault (gConfOf (.str "zzz") "foo") (mkLeaf "bar") = none
    ∧ buildFieldContext (gConfOf (.str "zzz") "foo") (mkLeaf "bar")
        = .error (missingDefaultMsg (FieldSpec.Name (mkLeaf "bar"))) :=
  ⟨(spec_c10 (.str "zzz") "foo" (mkLeaf "bar") namedExampleFields (.int 1)).1 rfl rfl,
   ((spec_c10 (.str "zzz") "foo" (mkLeaf "bar") namedExampleFields (.int 1)).2 rfl rfl).1,
   ((spec_c10 (.str "zzz") "foo" (mkLeaf "bar") namedExampleFields (.int 1)).2 rfl rfl).2.1,
   ((spec_c10 (.str "zzz") "foo" (mkLeaf "bar") namedExampleFields (.int 1)).2 rfl rfl).2.2⟩
